import Mathlib

/-!
Verification of the mysql-baileys credential store.

This development gives a shallow embedding of the store's pure logic:

* `JVal` models the dynamic (JSON-like) values the store moves around —
  `Buffer` nodes carry raw bytes, `jsUndefined`/`nan` model the JavaScript
  values `undefined` and `NaN`.
* `b64encode`/`b64decode` model Node's base64 codec used by
  `BufferJSON.replacer`/`BufferJSON.reviver` (src/Utils/index.ts).
* `jserialize`/`jdeserialize` model
  `JSON.stringify(v, BufferJSON.replacer)` followed by
  `JSON.parse(·, BufferJSON.reviver)` as a transformation on value trees.
* Further sections embed `fromObject`, the key-value store operations
  (`get`/`set`/`clear`/`removeAll`), the retrying `query` wrappers, the
  legacy-to-normalized migration, identifier sanitization and the
  configuration validation of `useMySQLAuthState`.
-/

mutual

/-- Dynamic JavaScript/JSON value as handled by the store.  `buf` is a
Node `Buffer`/`Uint8Array` holding raw bytes, `jsUndefined` is `undefined`
and `nan` is the number `NaN`. -/
inductive JVal where
  | null
  | jsUndefined
  | nan
  | bool (b : Bool)
  | num (n : Int)
  | str (s : String)
  | buf (bytes : List Nat)
  | arr (items : JList)
  | obj (fields : JFields)
deriving DecidableEq

inductive JList where
  | nil
  | cons (hd : JVal) (tl : JList)
deriving DecidableEq

inductive JFields where
  | nil
  | cons (key : String) (val : JVal) (tl : JFields)
deriving DecidableEq

end

/-- First binding of a key in an object's field list (JavaScript property
lookup). -/
def jlookup : JFields → String → Option JVal
  | .nil, _ => none
  | .cons k v tl, key => if k = key then some v else jlookup tl key

/-- JavaScript truthiness of a value. -/
def jsTruthy : JVal → Bool
  | .null => false
  | .jsUndefined => false
  | .nan => false
  | .bool b => b
  | .num n => n != 0
  | .str s => !s.isEmpty
  | .buf _ => true
  | .arr _ => true
  | .obj _ => true

/-- JavaScript property access `v[k]`: `undefined` on non-objects and on
missing keys. -/
def jsField (v : JVal) (k : String) : JVal :=
  match v with
  | .obj l => (jlookup l k).getD .jsUndefined
  | _ => .jsUndefined

/-! ### Base64 (Node `Buffer.toString('base64')` / `Buffer.from(s, 'base64')`) -/

/-- The base64 alphabet. -/
def b64chars : List Char :=
  "ABCDEFGHIJKLMNOPQRSTUVWXYZabcdefghijklmnopqrstuvwxyz0123456789+/".toList

/-- Character of a six-bit group. -/
def b64encChar (n : Nat) : Char := b64chars.getD n '='

/-- Index of a character in a list, if present. -/
def charIndex (c : Char) : List Char → Option Nat
  | [] => none
  | x :: xs => if x = c then some 0 else (charIndex c xs).map (· + 1)

/-- Six-bit group of a base64 character, if valid. -/
def b64decChar (c : Char) : Option Nat := charIndex c b64chars

/-- Base64 encoding of a byte list, with `'='` padding (RFC 4648, as
produced by Node's `Buffer.prototype.toString('base64')`). -/
def b64encode : List Nat → List Char
  | [] => []
  | [a] => [b64encChar (a / 4), b64encChar (a % 4 * 16), '=', '=']
  | [a, b] => [b64encChar (a / 4), b64encChar (a % 4 * 16 + b / 16), b64encChar (b % 16 * 4), '=']
  | a :: b :: c :: rest =>
      b64encChar (a / 4) :: b64encChar (a % 4 * 16 + b / 16) ::
        b64encChar (b % 16 * 4 + c / 64) :: b64encChar (c % 64) :: b64encode rest

/-- Base64 decoding of a character list (the behaviour of
`Buffer.from(s, 'base64')` on well-formed encodings). -/
def b64decode : List Char → List Nat
  | c1 :: c2 :: c3 :: c4 :: rest =>
    match b64decChar c1, b64decChar c2 with
    | some s1, some s2 =>
      let x1 := s1 * 4 + s2 / 16
      if c3 = '=' then [x1]
      else
        match b64decChar c3 with
        | some s3 =>
          let x2 := s2 % 16 * 16 + s3 / 4
          if c4 = '=' then [x1, x2]
          else
            match b64decChar c4 with
            | some s4 => x1 :: x2 :: (s3 % 4 * 64 + s4) :: b64decode rest
            | none => [x1, x2]
        | none => [x1]
    | _, _ => []
  | _ => []

/-! ### The `BufferJSON` codec (src/Utils/index.ts)

`jserialize` models `JSON.stringify(v, BufferJSON.replacer)` followed by
parsing the produced text back into a value tree: a `Buffer` node first
becomes its `toJSON` form (an object with `type: 'Buffer'` and the byte
array under `data`) and the replacer then substitutes the base64 string
of the bytes.  `jdeserialize` models `JSON.parse(text, BufferJSON.reviver)`:
the reviver runs bottom-up and turns any object whose `type` property is
the string `"Buffer"` into `Buffer.from(data, 'base64')`. -/

/-- Does an optional property hold the string `"Buffer"`?  This is the
`value?.type === 'Buffer'` test of both the replacer and the reviver. -/
def isBufferTag : Option JVal → Bool
  | some (.str s) => s = "Buffer"
  | _ => false

/-- Byte coercion `Buffer.from` applies to an element of a plain array:
a number is taken modulo 256; `true` is 1; other (non-numeric) elements
coerce to 0.  Numeric strings inside such arrays are not modelled. -/
def jbyteOf : JVal → Nat
  | .num n => (n % 256).toNat
  | .bool true => 1
  | _ => 0

/-- Bytes of a plain JavaScript array, as `Buffer.from(array)` reads them. -/
def jlistBytes : JList → List Nat
  | .nil => []
  | .cons v tl => jbyteOf v :: jlistBytes tl

/-- Is an optional property a plain array?  (`Array.isArray(value?.data)`.) -/
def isArrayField : Option JVal → Bool
  | some (.arr _) => true
  | _ => false

/-- The `value?.type === 'Buffer' && Array.isArray(value?.data)` test of
`BufferJSON.replacer`. -/
def isBufferShape (l : JFields) : Bool :=
  isBufferTag (jlookup l "type") && isArrayField (jlookup l "data")

/-- Items of the `data` property when it is a plain array. -/
def bufShapeItems (l : JFields) : JList :=
  match jlookup l "data" with
  | some (.arr items) => items
  | _ => .nil

mutual

/-- `JSON.stringify(·, BufferJSON.replacer)` read back as a value tree:
`Buffer` nodes (via their `toJSON` form) and plain objects already shaped
like a `Buffer`'s `toJSON` output are replaced by an object carrying the
base64 text of their bytes; everything else is traversed structurally. -/
def jserialize : JVal → JVal
  | .buf bytes =>
      .obj (.cons "type" (.str "Buffer") (.cons "data" (.str ⟨b64encode bytes⟩) .nil))
  | .arr l => .arr (jserializeList l)
  | .obj l =>
      if isBufferShape l then
        .obj (.cons "type" (.str "Buffer")
          (.cons "data" (.str ⟨b64encode (jlistBytes (bufShapeItems l))⟩) .nil))
      else .obj (jserializeFields l)
  | v => v

def jserializeList : JList → JList
  | .nil => .nil
  | .cons v tl => .cons (jserialize v) (jserializeList tl)

def jserializeFields : JFields → JFields
  | .nil => .nil
  | .cons k v tl => .cons k (jserialize v) (jserializeFields tl)

end

/-- Action of `BufferJSON.reviver` on an already-revived object: when the
`type` property is the string `"Buffer"` the object becomes
`Buffer.from(data, 'base64')` (a byte node); `Buffer.from` on a string
decodes base64, on a `Buffer`/typed array copies it, on a plain array
coerces its elements to bytes, and throws on anything else (modelled as
`Except.error`). -/
def reviveBuffer (l2 : JFields) : Except Unit JVal :=
  if isBufferTag (jlookup l2 "type") then
    match jlookup l2 "data" with
    | some (.str s) => .ok (.buf (b64decode s.toList))
    | some (.buf bs) => .ok (.buf bs)
    | some (.arr items) => .ok (.buf (jlistBytes items))
    | _ => .error ()
  else .ok (.obj l2)

mutual

/-- `JSON.parse(·, BufferJSON.reviver)` as a transformation of the parsed
value tree: children are revived first, then objects tagged
`type: "Buffer"` collapse into byte nodes. -/
def jdeserialize : JVal → Except Unit JVal
  | .arr l =>
    match jdeserializeList l with
    | .ok l2 => .ok (.arr l2)
    | .error e => .error e
  | .obj l =>
    match jdeserializeFields l with
    | .ok l2 => reviveBuffer l2
    | .error e => .error e
  | v => .ok v

def jdeserializeList : JList → Except Unit JList
  | .nil => .ok .nil
  | .cons v tl =>
    match jdeserialize v, jdeserializeList tl with
    | .ok v2, .ok tl2 => .ok (.cons v2 tl2)
    | .error e, _ => .error e
    | _, .error e => .error e

def jdeserializeFields : JFields → Except Unit JFields
  | .nil => .ok .nil
  | .cons k v tl =>
    match jdeserialize v, jdeserializeFields tl with
    | .ok v2, .ok tl2 => .ok (.cons k v2 tl2)
    | .error e, _ => .error e
    | _, .error e => .error e

end

mutual

/-- Values for which the codec is faithful: byte nodes hold real bytes
(below 256), no plain object masquerades as a `Buffer`'s `toJSON` form
(its `type` property is never the string `"Buffer"`), and the JavaScript
values `undefined` and `NaN` (which `JSON.stringify` drops or rewrites)
do not occur. -/
def jwf : JVal → Bool
  | .null => true
  | .jsUndefined => false
  | .nan => false
  | .bool _ => true
  | .num _ => true
  | .str _ => true
  | .buf bytes => bytes.all (· < 256)
  | .arr l => jwfList l
  | .obj l => !isBufferTag (jlookup l "type") && jwfFields l

def jwfList : JList → Bool
  | .nil => true
  | .cons v tl => jwf v && jwfList tl

def jwfFields : JFields → Bool
  | .nil => true
  | .cons _ v tl => jwf v && jwfFields tl

end

/-! ### `fromObject` and its helpers (src/Utils/index.ts)

`fromObject` normalizes a decoded `app-state-sync-key` value.  It is
dynamically typed, so it is modelled on `JVal` with JavaScript semantics:
property access on `undefined`/`null` throws (`Except.error`), `parseInt`
parses an optional sign and leading decimal digits, and `allocate` builds
a zero-filled `Uint8Array` whose size is computed from a base64 string's
length (throwing a `RangeError` when that size is not a whole number). -/

/-- Whitespace skipped by `parseInt`. -/
def isParseSpace (c : Char) : Bool := c = ' ' || c = '\t' || c = '\n' || c = '\r'

/-- Value of the leading decimal digits of a character list, if any. -/
def digitsVal (l : List Char) : Option Nat :=
  let ds := l.takeWhile Char.isDigit
  if ds.isEmpty then none
  else some (ds.foldl (fun a c => a * 10 + (c.toNat - 48)) 0)

/-- Sign handling of `parseInt` after whitespace has been skipped. -/
def jsParseIntList : List Char → Option Int
  | [] => none
  | c :: rest =>
    if c = '-' then (digitsVal rest).map (fun n => -(n : Int))
    else if c = '+' then (digitsVal rest).map (fun n => (n : Int))
    else (digitsVal (c :: rest)).map (fun n => (n : Int))

/-- JavaScript `parseInt(s, 10)`: skip whitespace, read an optional sign
and the leading decimal digits; `none` models `NaN`. -/
def jsParseInt (s : String) : Option Int :=
  jsParseIntList (s.toList.dropWhile isParseSpace)

/-- `parseTimestamp` of src/Utils/index.ts: a string goes through
`parseInt(·, 10)`, a number is kept, anything else is returned as-is. -/
def parseTimestampJ : JVal → JVal
  | .str s =>
    match jsParseInt s with
    | some n => .num n
    | none => .nan
  | .num n => .num n
  | v => v

/-- The padding-counting loop of `allocate`: starting from `p = length`,
JavaScript `--p % 4 > 1 && str.charAt(p) === "="` decrements `p` first
and counts while the test holds. -/
def allocCount (s : List Char) : Nat → Nat → Nat
  | 0, n => n
  | p + 1, n => if p % 4 > 1 && s.getD p ' ' = '=' then allocCount s p (n + 1) else n

/-- `allocate(str)` of src/Utils/index.ts: the empty string yields a
single zero byte (`new Uint8Array(1)`); otherwise the result is a
zero-filled array of `str.length * 3 / 4 - n` bytes where `n` counts
trailing padding.  When `str.length * 3 / 4` is fractional,
`new Uint8Array` throws a `RangeError` (modelled as `Except.error`). -/
def allocate (s : List Char) : Except Unit (List Nat) :=
  if s.length = 0 then .ok [0]
  else
    let n := allocCount s s.length 0
    if s.length * 3 % 4 = 0 then .ok (List.replicate (s.length * 3 / 4 - n) 0)
    else .error ()

/-- `fromObject(args)` of src/Utils/index.ts on a dynamic value.
Accessing `args.fingerprint.deviceIndexes` throws when `args.fingerprint`
is `undefined` or `null`; `deviceIndexes` keeps a plain array and defaults
to `[]`; `rawId` defaults to 0 (and also feeds `currentIndex`); `keyData`
keeps a plain array, goes through `allocate` when it is a string, and
defaults to an empty `Uint8Array` otherwise; `timestamp` goes through
`parseTimestamp`. -/
def fromObject (args : JVal) : Except Unit JVal :=
  match jsField args "fingerprint" with
  | .jsUndefined => .error ()
  | .null => .error ()
  | fp =>
    let dIdx : JVal :=
      match jsField fp "deviceIndexes" with
      | .arr l => .arr l
      | _ => .arr .nil
    let rawId : JVal :=
      if jsTruthy (jsField fp "rawId") then jsField fp "rawId" else .num 0
    let ts := parseTimestampJ (jsField args "timestamp")
    match
      (match jsField args "keyData" with
       | .str s => (allocate s.toList).map JVal.buf
       | .arr l => .ok (.arr l)
       | _ => .ok (.buf [])) with
    | .ok keyData =>
      .ok (.obj (.cons "keyData" keyData
        (.cons "fingerprint"
          (.obj (.cons "rawId" rawId (.cons "currentIndex" rawId
            (.cons "deviceIndexes" dIdx .nil))))
          (.cons "timestamp" ts .nil))))
    | .error e => .error e

/-! ### The key-value store surface (src/Mysql/index.ts, for one session)

The rows of the single `auth` table that belong to the current session
are modelled as an association list from the full identifier
(`category-id`, or `creds`) to the stored value. -/

/-- Rows of the current session: full identifier to stored value. -/
abbrev Store := List (String × JVal)

/-- First row with the given identifier (the `SELECT` of `readData` under
the unique key on `(session, id)`). -/
def storeLookup : Store → String → Option JVal
  | [], _ => none
  | (k, v) :: tl, key => if k = key then some v else storeLookup tl key

/-- `readData(id)`: `rows[0]?.value ?? null`, with `none` standing for
`null`. -/
def readData (db : Store) (id : String) : Option JVal := storeLookup db id

/-- `state.keys.get(type, ids)` of src/Mysql/index.ts: for every requested
id the row `type-id` is read and `data[id] = value` is always assigned —
also when the value is `null`.  An `app-state-sync-key` value additionally
passes through `fromObject`, whose exceptions propagate. -/
def keysGet (db : Store) (ty : String) (ids : List String) :
    Except Unit (List (String × Option JVal)) :=
  match ids with
  | [] => .ok []
  | id :: rest =>
    let v1 : Except Unit (Option JVal) :=
      match readData db (ty ++ "-" ++ id) with
      | some v =>
        if ty = "app-state-sync-key" && jsTruthy v then
          match fromObject v with
          | .ok w => .ok (some w)
          | .error e => .error e
        else .ok (some v)
      | none => .ok none
    match v1, keysGet db ty rest with
    | .ok v, .ok tl => .ok ((id, v) :: tl)
    | .error e, _ => .error e
    | _, .error e => .error e

/-- Replacement of the row keyed `k` by `(k, v)` (other rows are kept). -/
def updateRow (k : String) (v : JVal) (p : String × JVal) : String × JVal :=
  if p.1 = k then (k, v) else p

/-- `INSERT ... ON DUPLICATE KEY UPDATE value = ?`: update the existing
row under the unique key, or append a new one. -/
def dbUpsert (db : Store) (k : String) (v : JVal) : Store :=
  if (storeLookup db k).isSome then db.map (updateRow k v)
  else db ++ [(k, v)]

/-- `DELETE FROM ... WHERE id = ?` for the current session. -/
def dbDelete (db : Store) (k : String) : Store :=
  db.filter (fun p => decide (p.1 ≠ k))

/-- The dataset handed to `state.keys.set`: per category, per id, the
value to write (`null`/`undefined` appearing as falsy `JVal`s). -/
abbrev SignalDataSet := List (String × List (String × JVal))

/-- `state.keys.set(data)` of src/Mysql/index.ts: for every category and
id, a truthy value is upserted under the row name `category-id` and a
falsy one deletes that row. -/
def applySet (db : Store) (ds : SignalDataSet) : Store :=
  ds.foldl (fun acc cat =>
    cat.2.foldl (fun acc2 entry =>
      let name := cat.1 ++ "-" ++ entry.1
      if jsTruthy entry.2 then dbUpsert acc2 name entry.2 else dbDelete acc2 name) acc) db

/-- The write/delete operations of one `set` call, flattened in iteration
order to (row name, value) pairs. -/
def setOps : SignalDataSet → List (String × JVal)
  | [] => []
  | cat :: rest =>
    cat.2.map (fun entry => (cat.1 ++ "-" ++ entry.1, entry.2)) ++ setOps rest

/-! ### The legacy table across sessions (for `clear` / `removeCreds`) -/

/-- Row of the legacy `auth` table. -/
structure LegacyRow where
  session : String
  id : String
  value : JVal
deriving DecidableEq

/-- `SELECT value ... WHERE id = ? AND session = ? LIMIT 1`. -/
def selectValue (db : List LegacyRow) (s id : String) : Option JVal :=
  (db.find? (fun r => decide (r.session = s) && decide (r.id = id))).map LegacyRow.value

/-- `clearAll`: `DELETE ... WHERE id != 'creds' AND session = ?`. -/
def clearAllRows (db : List LegacyRow) (s : String) : List LegacyRow :=
  db.filter (fun r => !(decide (r.id ≠ "creds") && decide (r.session = s)))

/-- `removeAll`: `DELETE ... WHERE session = ?`. -/
def removeAllRows (db : List LegacyRow) (s : String) : List LegacyRow :=
  db.filter (fun r => !(decide (r.session = s)))

/-! ### The retrying `query` wrappers

Attempt outcomes are abstracted by a predicate `ok : Nat → Bool` telling
whether the n-th execution of the statement (0-based) succeeds; a run of
the wrapper either returns the rows of some successful attempt, returns
the empty row set (the dead `return []` after the loop, reachable only
with a zero retry bound), or propagates an error. -/

inductive QueryOutcome where
  | rows (attempt : Nat)
  | emptyRows
  | err
deriving DecidableEq

/-- Loop body of `query` in the legacy `useMySQLAuthState`
(src/unnamed/part_002): on failure of the last in-loop attempt
(`x === maxtRetries - 1`) the connection is re-opened with `force` and
the statement is executed once more (attempt number `maxRetries`); if
that also fails the original error is thrown. -/
def queryRetryLoop (ok : Nat → Bool) (maxRetries : Nat) : List Nat → QueryOutcome
  | [] => .emptyRows
  | x :: rest =>
    if ok x then .rows x
    else if x + 1 = maxRetries then
      (if ok maxRetries then .rows maxRetries else .err)
    else queryRetryLoop ok maxRetries rest

/-- `query(sql, values)` of src/unnamed/part_002, iterating
`for (let x = 0; x < maxtRetries; x++)`. -/
def queryWithReconnect (ok : Nat → Bool) (maxRetries : Nat) : QueryOutcome :=
  queryRetryLoop ok maxRetries (List.range maxRetries)

/-- Loop of `query` in src/Mysql/index.ts: every failed attempt only
waits and retries; after the loop the error is rethrown (`none`).  No
extra post-refresh attempt exists in this variant. -/
def queryExecLoop (ok : Nat → Bool) : List Nat → Option Nat
  | [] => none
  | x :: rest => if ok x then some x else queryExecLoop ok rest

/-- `query(sql, values)` of src/Mysql/index.ts. -/
def querySimpleRetry (ok : Nat → Bool) (maxRetries : Nat) : Option Nat :=
  queryExecLoop ok (List.range maxRetries)

/-! ### Prefix classification and legacy migration -/

/-- Is the first list a prefix of the second (SQL `LIKE 'p%'`,
JavaScript `String.prototype.startsWith`)? -/
def listStarts : List Char → List Char → Bool
  | [], _ => true
  | _ :: _, [] => false
  | p :: ps, c :: cs => p = c && listStarts ps cs

/-- String version of `listStarts`. -/
def strStarts (p s : String) : Bool := listStarts p.toList s.toList

/-- One entry of the `keyTypes` table driving `migrateFromLegacy`
(src/Mysql/optimized.ts). -/
structure MigKeyType where
  ty : String
  table : String
  pfx : String
deriving DecidableEq

/-- The `keyTypes` list of `migrateFromLegacy`, in source order: the
`sender-key-memory` entry precedes `sender-key`, and
`app-state-sync-version` precedes `app-state-sync-key`. -/
def migKeyTypes : List MigKeyType :=
  [⟨"sender-key-memory", "sender_key_memory", "sender-key-memory-"⟩,
   ⟨"sender-key", "sender_keys", "sender-key-"⟩,
   ⟨"session", "sessions", "session-"⟩,
   ⟨"pre-key", "pre_keys", "pre-key-"⟩,
   ⟨"app-state-sync-version", "app_state_sync_versions", "app-state-sync-version-"⟩,
   ⟨"app-state-sync-key", "app_state_sync_keys", "app-state-sync-key-"⟩]

/-- The SQL condition `migrateFromLegacy` builds for one key type:
`id LIKE 'prefix%'`, with the explicit exclusions
`AND id NOT LIKE 'sender-key-memory-%'` for `sender-key` and
`AND id NOT LIKE 'app-state-sync-version-%'` for `app-state-sync-key`. -/
def migCondition (kt : MigKeyType) (id : String) : Bool :=
  strStarts kt.pfx id
    && (if kt.ty = "sender-key" then !strStarts "sender-key-memory-" id else true)
    && (if kt.ty = "app-state-sync-key" then !strStarts "app-state-sync-version-" id else true)

/-- Table routing record returned by `getTableConfigFromKey`
(src/unnamed/part_003); the identifier prefix is stored under `pfx`. -/
structure TableConfig where
  suffix : String
  keyColumn : String
  dataColumn : String
  pfx : String
deriving DecidableEq

/-- `getTableConfigFromKey(key)` of src/unnamed/part_003: prefixes are
tested in source order, the more specific `sender-key-memory-` and
`app-state-sync-version-` before their broader siblings. -/
def getTableConfigFromKey (key : String) : Option TableConfig :=
  if strStarts "pre-key-" key then
    some ⟨"_prekeys", "key_id", "key_data", "pre-key-"⟩
  else if strStarts "session-" key then
    some ⟨"_sessions", "session_id", "session_data", "session-"⟩
  else if strStarts "sender-key-memory-" key then
    some ⟨"_memory", "jid", "memory_data", "sender-key-memory-"⟩
  else if strStarts "sender-key-" key then
    some ⟨"_senderkeys", "key_id", "key_data", "sender-key-"⟩
  else if strStarts "app-state-sync-version-" key then
    some ⟨"_appversions", "version_id", "version_data", "app-state-sync-version-"⟩
  else if strStarts "app-state-sync-key-" key then
    some ⟨"_appkeys", "key_id", "key_data", "app-state-sync-key-"⟩
  else none

/-- Row of a normalized key table (`key_id`, `value`, `device_id`,
`session`). -/
structure NormRow where
  keyId : String
  value : JVal
  deviceId : Nat
  session : String
deriving DecidableEq

/-- State touched by `migrateFromLegacy`: the `devices` table (projected
to its surrogate id and session), the legacy table, and the six
normalized key tables. -/
structure MigState where
  devices : List (Nat × String)
  legacy : List LegacyRow
  senderKeyMemory : List NormRow
  senderKeys : List NormRow
  sessions : List NormRow
  preKeys : List NormRow
  appStateSyncVersions : List NormRow
  appStateSyncKeys : List NormRow
deriving DecidableEq

/-- `INSERT ... ON DUPLICATE KEY UPDATE value = VALUES(value)` under the
primary key `(key_id, device_id)`. -/
def normUpsert (rows : List NormRow) (r : NormRow) : List NormRow :=
  if rows.any (fun x => decide (x.keyId = r.keyId) && decide (x.deviceId = r.deviceId)) then
    rows.map (fun x =>
      if x.keyId = r.keyId ∧ x.deviceId = r.deviceId then { x with value := r.value } else x)
  else rows ++ [r]

/-- Dispatch of a batch insert to the normalized table named `table`. -/
def insertRows (st : MigState) (table : String) (rows : List NormRow) : MigState :=
  if table = "sender_key_memory" then
    { st with senderKeyMemory := rows.foldl normUpsert st.senderKeyMemory }
  else if table = "sender_keys" then
    { st with senderKeys := rows.foldl normUpsert st.senderKeys }
  else if table = "sessions" then
    { st with sessions := rows.foldl normUpsert st.sessions }
  else if table = "pre_keys" then
    { st with preKeys := rows.foldl normUpsert st.preKeys }
  else if table = "app_state_sync_versions" then
    { st with appStateSyncVersions := rows.foldl normUpsert st.appStateSyncVersions }
  else if table = "app_state_sync_keys" then
    { st with appStateSyncKeys := rows.foldl normUpsert st.appStateSyncKeys }
  else st

/-- JavaScript `String.prototype.replace` with a string pattern: delete
the first occurrence of `pfx` (used by migration to strip the category
prefix from a legacy identifier). -/
def replaceFirst (pfx : List Char) : List Char → List Char
  | [] => []
  | c :: cs =>
    if listStarts pfx (c :: cs) then (c :: cs).drop pfx.length
    else c :: replaceFirst pfx cs

/-- `row.id.replace(keyType.prefix, '')` on strings. -/
def stripKeyId (pfx id : String) : String := ⟨replaceFirst pfx.toList id.toList⟩

/-- `getDeviceId()`: the surrogate id of the session's device row, with
the fallback `deviceId = 1`. -/
def getDeviceId (st : MigState) (s : String) : Nat :=
  match st.devices.find? (fun d => decide (d.2 = s)) with
  | some d => d.1
  | none => 1

/-- `saveDeviceData(creds)`, projected to the device linkage: insert a
device row for the session (fresh surrogate id) or keep the existing one
(`ON DUPLICATE KEY UPDATE` rewrites credential columns only). -/
def saveDeviceData (st : MigState) (s : String) : MigState :=
  if (st.devices.find? (fun d => decide (d.2 = s))).isSome then st
  else { st with devices := st.devices ++ [(st.devices.length + 1, s)] }

/-- Migration of one `keyTypes` entry: scan the legacy table of the
session with `migCondition`, strip the prefix and batch-upsert into the
entry's normalized table. -/
def migrateKeyType (s : String) (did : Nat) (st : MigState) (kt : MigKeyType) : MigState :=
  let rows := st.legacy.filter (fun r => migCondition kt r.id && decide (r.session = s))
  insertRows st kt.table (rows.map (fun r => ⟨stripKeyId kt.pfx r.id, r.value, did, s⟩))

/-- `migrateFromLegacy()` of src/Mysql/optimized.ts: if a device row for
the session already exists the migration returns immediately; otherwise
the legacy credentials (when present) are turned into a device row and
every `keyTypes` entry is migrated. -/
def migrateFromLegacy (st : MigState) (s : String) : MigState :=
  if (st.devices.find? (fun d => decide (d.2 = s))).isSome then st
  else
    let st1 :=
      match selectValue st.legacy s "creds" with
      | some _ => saveDeviceData st s
      | none => st
    let did := getDeviceId st1 s
    migKeyTypes.foldl (migrateKeyType s did) st1

/-! ### Identifier sanitization (src/Mysql/index.ts, src/Utils/index.ts) -/

/-- Membership in the character class `[a-zA-Z0-9_]`. -/
def isWordChar (c : Char) : Bool :=
  ('a' ≤ c && c ≤ 'z') || ('A' ≤ c && c ≤ 'Z') || ('0' ≤ c && c ≤ '9') || c = '_'

/-- `sanitizeTableName`: `name.replace(/[^a-zA-Z0-9_]/g, '')`. -/
def sanitizeTableName (s : String) : String := ⟨s.toList.filter isWordChar⟩

/-- `sqlSanitize.identifier` of src/Utils/index.ts (the same regex). -/
def sqlSanitizeIdentifier (s : String) : String := ⟨s.toList.filter isWordChar⟩

/-- The `CREATE TABLE` statement built by `initializeDatabase`: the only
interpolated fragment is the sanitized table name. -/
def initializeDatabaseSQL (tableName : String) : String :=
  "CREATE TABLE IF NOT EXISTS `" ++ sanitizeTableName tableName ++
    "` (`session` varchar(50) NOT NULL, `id` varchar(80) NOT NULL, `value` json DEFAULT NULL, `created_at` TIMESTAMP DEFAULT CURRENT_TIMESTAMP, `updated_at` TIMESTAMP DEFAULT CURRENT_TIMESTAMP ON UPDATE CURRENT_TIMESTAMP, UNIQUE KEY `idxunique` (`session`,`id`), KEY `idxsession` (`session`), KEY `idxid` (`id`)) ENGINE=InnoDB CHARACTER SET utf8mb4 COLLATE utf8mb4_unicode_ci;"

/-! ### Configuration validation of `useMySQLAuthState` (src/Mysql/index.ts) -/

/-- JavaScript falsiness of an optional string (`!config.database`):
absent or empty. -/
def strFalsy : Option String → Bool
  | none => true
  | some s => s.isEmpty

/-- Side effects `useMySQLAuthState` performs after validating its
configuration, in order. -/
inductive InitEffect where
  | openConnection
  | initDatabase
  | prepareStatements
deriving DecidableEq

/-- The head of `useMySQLAuthState`: `if (!config.database ||
!config.session) throw new Error('Database name and session identifier
are required')` runs before any connection or query; on success the
connection is opened, the table initialized and the statements
prepared. -/
def useMySQLAuthStateInit (database session : Option String) : Except String (List InitEffect) :=
  if strFalsy database || strFalsy session then
    .error "Database name and session identifier are required"
  else
    .ok [.openConnection, .initDatabase, .prepareStatements]

/-- One operation of a `set` call (upsert a truthy value, delete a falsy
one), as folded by `applySet`. -/
def setStep (db : Store) (p : String × JVal) : Store :=
  if jsTruthy p.2 then dbUpsert db p.1 p.2 else dbDelete db p.1

/-! ### Helper lemmas -/

theorem b64decChar_encChar {n : Nat} (h : n < 64) : b64decChar (b64encChar n) = some n := by
  have : ∀ m : Fin 64, b64decChar (b64encChar m.val) = some m.val := by decide
  exact this ⟨n, h⟩

theorem b64encChar_ne_pad {n : Nat} (h : n < 64) : b64encChar n ≠ '=' := by
  have : ∀ m : Fin 64, b64encChar m.val ≠ '=' := by decide
  exact this ⟨n, h⟩

/-- Round trip of the base64 codec on byte lists. -/
theorem b64decode_encode : ∀ l : List Nat, (∀ x ∈ l, x < 256) → b64decode (b64encode l) = l
  | [], _ => rfl
  | [a], h => by
    have ha : a < 256 := h a (by simp)
    simp only [b64encode, b64decode,
      b64decChar_encChar (show a / 4 < 64 by omega),
      b64decChar_encChar (show a % 4 * 16 < 64 by omega),
      if_true, List.cons.injEq, and_true]
    omega
  | [a, b], h => by
    have ha : a < 256 := h a (by simp)
    have hb : b < 256 := h b (by simp)
    simp only [b64encode, b64decode,
      b64decChar_encChar (show a / 4 < 64 by omega),
      b64decChar_encChar (show a % 4 * 16 + b / 16 < 64 by omega),
      if_neg (b64encChar_ne_pad (show b % 16 * 4 < 64 by omega)),
      b64decChar_encChar (show b % 16 * 4 < 64 by omega),
      if_true, List.cons.injEq, and_true]
    omega
  | [a, b, c], h => by
    have ha : a < 256 := h a (by simp)
    have hb : b < 256 := h b (by simp)
    have hc : c < 256 := h c (by simp)
    simp only [b64encode, b64decode,
      b64decChar_encChar (show a / 4 < 64 by omega),
      b64decChar_encChar (show a % 4 * 16 + b / 16 < 64 by omega),
      if_neg (b64encChar_ne_pad (show b % 16 * 4 + c / 64 < 64 by omega)),
      b64decChar_encChar (show b % 16 * 4 + c / 64 < 64 by omega),
      if_neg (b64encChar_ne_pad (show c % 64 < 64 by omega)),
      b64decChar_encChar (show c % 64 < 64 by omega),
      if_true, List.cons.injEq, and_true]
    omega
  | a :: b :: c :: d :: rest, h => by
    have ha : a < 256 := h a (by simp)
    have hb : b < 256 := h b (by simp)
    have hc : c < 256 := h c (by simp)
    have ih := b64decode_encode (d :: rest) (fun x hx => h x (by simp at hx ⊢; tauto))
    simp only [b64encode, b64decode,
      b64decChar_encChar (show a / 4 < 64 by omega),
      b64decChar_encChar (show a % 4 * 16 + b / 16 < 64 by omega),
      if_neg (b64encChar_ne_pad (show b % 16 * 4 + c / 64 < 64 by omega)),
      b64decChar_encChar (show b % 16 * 4 + c / 64 < 64 by omega),
      if_neg (b64encChar_ne_pad (show c % 64 < 64 by omega)),
      b64decChar_encChar (show c % 64 < 64 by omega)]
    simp only [ih, List.cons.injEq]
    refine ⟨by omega, by omega, by omega, trivial⟩

mutual

theorem jdeserialize_jserialize : ∀ v : JVal, jwf v = true → jdeserialize (jserialize v) = .ok v
  | .null, _ => rfl
  | .bool _, _ => rfl
  | .num _, _ => rfl
  | .str _, _ => rfl
  | .buf bytes, h => by
    have hb : ∀ x ∈ bytes, x < 256 := by
      simpa only [jwf, List.all_eq_true, decide_eq_true_eq] using h
    have hrfl : jdeserialize (jserialize (.buf bytes)) =
        .ok (.buf (b64decode (b64encode bytes))) := rfl
    rw [hrfl, b64decode_encode bytes hb]
  | .arr l, h => by
    have ih := jdeserializeList_jserializeList l (by simpa only [jwf] using h)
    simp only [jserialize, jdeserialize, ih]
  | .obj l, h => by
    have htag : isBufferTag (jlookup l "type") = false := by
      simp only [jwf, Bool.and_eq_true, Bool.not_eq_true'] at h
      exact h.1
    have hflds : jwfFields l = true := by
      simp only [jwf, Bool.and_eq_true] at h
      exact h.2
    have ih := jdeserializeFields_jserializeFields l hflds
    have hshape : isBufferShape l = false := by
      simp only [isBufferShape, htag, Bool.false_and]
    simp only [jserialize, hshape, Bool.false_eq_true, if_false, jdeserialize, ih,
      reviveBuffer, htag]

theorem jdeserializeList_jserializeList :
    ∀ l : JList, jwfList l = true → jdeserializeList (jserializeList l) = .ok l
  | .nil, _ => rfl
  | .cons v tl, h => by
    simp only [jwfList, Bool.and_eq_true] at h
    have ih1 := jdeserialize_jserialize v h.1
    have ih2 := jdeserializeList_jserializeList tl h.2
    simp only [jserializeList, jdeserializeList, ih1, ih2]

theorem jdeserializeFields_jserializeFields :
    ∀ l : JFields, jwfFields l = true → jdeserializeFields (jserializeFields l) = .ok l
  | .nil, _ => rfl
  | .cons k v tl, h => by
    simp only [jwfFields, Bool.and_eq_true] at h
    have ih1 := jdeserialize_jserialize v h.1
    have ih2 := jdeserializeFields_jserializeFields tl h.2
    simp only [jserializeFields, jdeserializeFields, ih1, ih2]

end


theorem listStarts_trans_le :
    ∀ (l a b : List Char), listStarts a l = true → listStarts b l = true →
      b.length ≤ a.length → listStarts b a = true
  | _, _, [], _, _, _ => rfl
  | [], _, _ :: _, _, hb, _ => by simp [listStarts] at hb
  | _ :: _, [], _ :: _, _, _, hlen => by simp at hlen
  | z :: zs, y :: ys, x :: xs, ha, hb, hlen => by
    simp only [listStarts, Bool.and_eq_true, decide_eq_true_eq] at ha hb ⊢
    exact ⟨hb.1.trans ha.1.symm,
      listStarts_trans_le zs ys xs ha.2 hb.2 (by simpa using hlen)⟩

/-- If `p` is a prefix of `s` and `q` is no longer than `p` but is not a
prefix of `p`, then `q` is not a prefix of `s`. -/
theorem strStarts_disjoint (p q s : String) (hps : strStarts p s = true)
    (hlen : q.toList.length ≤ p.toList.length)
    (hpq : listStarts q.toList p.toList = false) : strStarts q s = false := by
  cases h : strStarts q s with
  | false => rfl
  | true =>
    have := listStarts_trans_le s.toList p.toList q.toList hps h hlen
    rw [hpq] at this
    exact absurd this (by simp)

theorem queryRetryLoop_success (ok : Nat → Bool) :
    ∀ (n x j b : Nat), x + n = b → x ≤ j → j < b → ok j = true →
      (∀ i, i < j → ok i = false) →
      queryRetryLoop ok b (List.range' x n) = .rows j
  | 0, x, j, b, hinv, hxj, hjb, _, _ => by omega
  | n + 1, x, j, b, hinv, hxj, hjb, hok, hfail => by
    show queryRetryLoop ok b (x :: List.range' (x + 1) n) = .rows j
    by_cases hx : x = j
    · subst hx
      simp [queryRetryLoop, hok]
    · have hxl : x < j := by omega
      have hfx : ok x = false := hfail x hxl
      have hne : ¬(x + 1 = b) := by omega
      simp only [queryRetryLoop, hfx, Bool.false_eq_true, if_false, hne, if_neg hne]
      exact queryRetryLoop_success ok n (x + 1) j b (by omega) (by omega) hjb hok hfail

theorem queryRetryLoop_exhausted (ok : Nat → Bool) :
    ∀ (n x b : Nat), x + n = b → 1 ≤ n → (∀ i, i < b → ok i = false) →
      queryRetryLoop ok b (List.range' x n) =
        (if ok b = true then .rows b else .err)
  | 0, _, _, _, hn, _ => by omega
  | 1, x, b, hinv, _, hfail => by
    show queryRetryLoop ok b (x :: List.range' (x + 1) 0) = _
    have hfx : ok x = false := hfail x (by omega)
    have hxb : x + 1 = b := by omega
    simp [queryRetryLoop, hfx, hxb]
  | n + 2, x, b, hinv, _, hfail => by
    show queryRetryLoop ok b (x :: List.range' (x + 1) (n + 1)) = _
    have hfx : ok x = false := hfail x (by omega)
    have hne : ¬(x + 1 = b) := by omega
    simp only [queryRetryLoop, hfx, Bool.false_eq_true, if_false, if_neg hne]
    exact queryRetryLoop_exhausted ok (n + 1) (x + 1) b (by omega) (by omega) hfail

theorem find?_filter_keep {α : Type} (p keep : α → Bool) :
    ∀ l : List α, (∀ r, p r = true → keep r = true) →
      List.find? p (l.filter keep) = List.find? p l
  | [], _ => rfl
  | a :: tl, h => by
    cases hk : keep a with
    | true =>
      rw [List.filter_cons_of_pos hk]
      cases hp : p a with
      | true => rw [List.find?_cons_of_pos _ hp, List.find?_cons_of_pos _ hp]
      | false =>
        rw [List.find?_cons_of_neg _ (by simp [hp]), List.find?_cons_of_neg _ (by simp [hp])]
        exact find?_filter_keep p keep tl h
    | false =>
      have hp : p a = false := by
        cases hp : p a with
        | false => rfl
        | true => rw [h a hp] at hk; exact absurd hk (by simp)
      rw [List.filter_cons_of_neg (by simp [hk]), List.find?_cons_of_neg _ (by simp [hp])]
      exact find?_filter_keep p keep tl h

theorem find?_filter_none {α : Type} (p keep : α → Bool) :
    ∀ l : List α, (∀ r, keep r = true → p r = false) →
      List.find? p (l.filter keep) = none
  | [], _ => rfl
  | a :: tl, h => by
    cases hk : keep a with
    | true =>
      rw [List.filter_cons_of_pos hk, List.find?_cons_of_neg _ (by simp [h a hk])]
      exact find?_filter_none p keep tl h
    | false =>
      rw [List.filter_cons_of_neg (by simp [hk])]
      exact find?_filter_none p keep tl h


theorem storeLookup_map_update :
    ∀ (db : Store) (k : String) (v : JVal), (storeLookup db k).isSome = true →
      storeLookup (db.map (updateRow k v)) k = some v
  | [], k, v, h => by simp [storeLookup] at h
  | (k2, v2) :: tl, k, v, h => by
    rw [List.map_cons]
    by_cases hk : k2 = k
    · rw [show updateRow k v (k2, v2) = (k, v) from by simp [updateRow, hk]]
      simp [storeLookup]
    · rw [show updateRow k v (k2, v2) = (k2, v2) from by simp [updateRow, hk]]
      simp only [storeLookup, if_neg hk] at h ⊢
      exact storeLookup_map_update tl k v h

theorem storeLookup_append :
    ∀ (db1 db2 : Store) (k : String),
      storeLookup (db1 ++ db2) k =
        (match storeLookup db1 k with
         | some v => some v
         | none => storeLookup db2 k)
  | [], _, _ => rfl
  | (k2, v2) :: tl, db2, k => by
    by_cases hk : k2 = k
    · subst hk
      simp [storeLookup]
    · simp only [List.cons_append, storeLookup, if_neg hk]
      exact storeLookup_append tl db2 k

theorem storeLookup_upsert_self (db : Store) (k : String) (v : JVal) :
    storeLookup (dbUpsert db k v) k = some v := by
  unfold dbUpsert
  by_cases h : (storeLookup db k).isSome = true
  · rw [if_pos h]
    exact storeLookup_map_update db k v h
  · rw [if_neg h, storeLookup_append, Option.not_isSome_iff_eq_none.mp h]
    simp [storeLookup]

theorem storeLookup_upsert_other (db : Store) (k k2 : String) (v : JVal) (h : k2 ≠ k) :
    storeLookup (dbUpsert db k v) k2 = storeLookup db k2 := by
  unfold dbUpsert
  by_cases hs : (storeLookup db k).isSome = true
  · rw [if_pos hs]
    clear hs
    induction db with
    | nil => rfl
    | cons p tl ih =>
      obtain ⟨k3, v3⟩ := p
      rw [List.map_cons]
      by_cases hk3 : k3 = k
      · have hne : ¬(k3 = k2) := fun hc => h (hc ▸ hk3)
        rw [show updateRow k v (k3, v3) = (k, v) from by simp [updateRow, hk3]]
        simp only [storeLookup, if_neg (fun hc : k = k2 => h hc.symm), if_neg hne]
        exact ih
      · rw [show updateRow k v (k3, v3) = (k3, v3) from by simp [updateRow, hk3]]
        simp only [storeLookup]
        by_cases hk32 : k3 = k2
        · simp [hk32]
        · simp only [if_neg hk32]
          exact ih
  · rw [if_neg hs, storeLookup_append]
    cases hl : storeLookup db k2 with
    | some w => rfl
    | none =>
      simp only [storeLookup, if_neg (fun hc : k = k2 => h hc.symm)]

theorem storeLookup_delete_self (db : Store) (k : String) :
    storeLookup (dbDelete db k) k = none := by
  unfold dbDelete
  induction db with
  | nil => rfl
  | cons p tl ih =>
    obtain ⟨k2, v2⟩ := p
    by_cases hk : k2 = k
    · rw [List.filter_cons_of_neg (by simp [hk])]
      exact ih
    · rw [List.filter_cons_of_pos (by simp [hk])]
      simp only [storeLookup, if_neg hk]
      exact ih

theorem storeLookup_delete_other (db : Store) (k k2 : String) (h : k2 ≠ k) :
    storeLookup (dbDelete db k) k2 = storeLookup db k2 := by
  unfold dbDelete
  induction db with
  | nil => rfl
  | cons p tl ih =>
    obtain ⟨k3, v3⟩ := p
    by_cases hk : k3 = k
    · subst hk
      rw [List.filter_cons_of_neg (by simp)]
      simp only [storeLookup, if_neg (fun hc : k3 = k2 => h hc.symm)]
      exact ih
    · rw [List.filter_cons_of_pos (by simp [hk])]
      simp only [storeLookup]
      by_cases hk32 : k3 = k2
      · simp [hk32]
      · simp only [if_neg hk32]
        exact ih

theorem applySet_eq_fold : ∀ (ds : SignalDataSet) (db : Store),
    applySet db ds = (setOps ds).foldl setStep db
  | [], db => rfl
  | cat :: rest, db => by
    simp only [applySet, List.foldl_cons, setOps, List.foldl_append, List.foldl_map]
    rw [← applySet, applySet_eq_fold rest]
    rfl

theorem foldl_setStep_notmem :
    ∀ (ops : List (String × JVal)) (db : Store) (k : String),
      (∀ p ∈ ops, p.1 ≠ k) →
      storeLookup (ops.foldl setStep db) k = storeLookup db k
  | [], _, _, _ => rfl
  | op :: rest, db, k, h => by
    rw [List.foldl_cons,
      foldl_setStep_notmem rest _ k (fun p hp => h p (List.mem_cons_of_mem _ hp))]
    have hne : k ≠ op.1 := fun hc => h op (List.mem_cons_self _ _) hc.symm
    unfold setStep
    by_cases ht : jsTruthy op.2 = true
    · rw [if_pos ht]
      exact storeLookup_upsert_other db op.1 k op.2 hne
    · rw [if_neg ht]
      exact storeLookup_delete_other db op.1 k hne

theorem foldl_setStep_mem :
    ∀ (ops : List (String × JVal)) (db : Store) (k : String) (v : JVal),
      (ops.map Prod.fst).Nodup → (k, v) ∈ ops →
      storeLookup (ops.foldl setStep db) k =
        (if jsTruthy v = true then some v else none)
  | [], _, _, _, _, hmem => by simp at hmem
  | op :: rest, db, k, v, hnd, hmem => by
    simp only [List.map_cons, List.nodup_cons] at hnd
    rcases List.mem_cons.mp hmem with heq | htl
    · have hk : op.1 = k := by rw [← heq]
      have hrest : ∀ p ∈ rest, p.1 ≠ k := by
        intro p hp hc
        refine hnd.1 ?_
        rw [hk, ← hc]
        exact List.mem_map_of_mem Prod.fst hp
      rw [List.foldl_cons, foldl_setStep_notmem rest _ k hrest, ← heq]
      unfold setStep
      by_cases ht : jsTruthy v = true
      · rw [if_pos ht, if_pos ht]
        exact storeLookup_upsert_self db k v
      · rw [if_neg ht, if_neg ht]
        exact storeLookup_delete_self db k
    · rw [List.foldl_cons]
      exact foldl_setStep_mem rest _ k v hnd.2 htl

/-- A character that `parseInt` accepts as a digit is not skipped as
whitespace and is not a sign. -/
theorem digit_not_space {c : Char} (h : c.isDigit = true) :
    isParseSpace c = false ∧ c ≠ '-' ∧ c ≠ '+' := by
  refine ⟨?_, fun hc => absurd (hc ▸ h) (by decide), fun hc => absurd (hc ▸ h) (by decide)⟩
  cases hsp : isParseSpace c with
  | false => rfl
  | true =>
    exfalso
    simp only [isParseSpace, Bool.or_eq_true, decide_eq_true_eq] at hsp
    rcases hsp with ((hc | hc) | hc) | hc <;> exact absurd (hc ▸ h) (by decide)

/-- `parseInt` on a non-empty all-digit string returns the decimal value
of the digits. -/
theorem jsParseInt_digits (s : String) (hne : s.toList ≠ [])
    (hd : s.toList.all Char.isDigit = true) :
    jsParseInt s =
      some ((s.toList.foldl (fun a c => a * 10 + (c.toNat - 48)) 0 : Nat) : Int) := by
  rw [List.all_eq_true] at hd
  obtain ⟨c, cs, hcl⟩ : ∃ c cs, s.toList = c :: cs := by
    cases hl : s.toList with
    | nil => exact absurd hl hne
    | cons c cs => exact ⟨c, cs, rfl⟩
  have hc := digit_not_space (hd c (by rw [hcl]; simp))
  unfold jsParseInt
  rw [hcl, List.dropWhile_cons_of_neg (by simp [hc.1])]
  simp only [jsParseIntList, if_neg hc.2.1, if_neg hc.2.2]
  unfold digitsVal
  have htake : List.takeWhile Char.isDigit (c :: cs) = c :: cs :=
    List.takeWhile_eq_self_iff.mpr (fun x hx => hd x (hcl ▸ hx))
  simp only [htake, List.isEmpty_cons, Option.map_some']
  rfl

/-! ### Claim theorems -/

/-- C1: every legacy identifier beginning with `sender-key-memory-`
satisfies the migration scan condition of the `sender_key_memory` table,
never the `sender_keys` condition, and is routed by
`getTableConfigFromKey` to the `_memory` table; symmetrically, every
identifier beginning with `app-state-sync-version-` satisfies the
`app_state_sync_versions` condition, never the `app_state_sync_keys`
condition, and is routed to `_appversions`: the longer, more specific
prefix always wins. -/
theorem c1_prefix_precedence (id : String) :
    (strStarts "sender-key-memory-" id = true →
      migCondition ⟨"sender-key-memory", "sender_key_memory", "sender-key-memory-"⟩ id = true ∧
      migCondition ⟨"sender-key", "sender_keys", "sender-key-"⟩ id = false ∧
      (getTableConfigFromKey id).map TableConfig.suffix = some "_memory") ∧
    (strStarts "app-state-sync-version-" id = true →
      migCondition
        ⟨"app-state-sync-version", "app_state_sync_versions", "app-state-sync-version-"⟩ id
        = true ∧
      migCondition ⟨"app-state-sync-key", "app_state_sync_keys", "app-state-sync-key-"⟩ id
        = false ∧
      (getTableConfigFromKey id).map TableConfig.suffix = some "_appversions") := by
  constructor
  · intro h
    have hpre : strStarts "pre-key-" id = false :=
      strStarts_disjoint "sender-key-memory-" "pre-key-" id h (by decide) (by decide)
    have hses : strStarts "session-" id = false :=
      strStarts_disjoint "sender-key-memory-" "session-" id h (by decide) (by decide)
    refine ⟨?_, ?_, ?_⟩
    · simp [migCondition, h]
    · simp [migCondition, h]
    · simp [getTableConfigFromKey, hpre, hses, h]
  · intro h
    have hpre : strStarts "pre-key-" id = false :=
      strStarts_disjoint "app-state-sync-version-" "pre-key-" id h (by decide) (by decide)
    have hses : strStarts "session-" id = false :=
      strStarts_disjoint "app-state-sync-version-" "session-" id h (by decide) (by decide)
    have hskm : strStarts "sender-key-memory-" id = false :=
      strStarts_disjoint "app-state-sync-version-" "sender-key-memory-" id h
        (by decide) (by decide)
    have hsk : strStarts "sender-key-" id = false :=
      strStarts_disjoint "app-state-sync-version-" "sender-key-" id h (by decide) (by decide)
    have hask : strStarts "app-state-sync-key-" id = false :=
      strStarts_disjoint "app-state-sync-version-" "app-state-sync-key-" id h
        (by decide) (by decide)
    refine ⟨?_, ?_, ?_⟩
    · simp [migCondition, h]
    · simp [migCondition, hask]
    · simp [getTableConfigFromKey, hpre, hses, hskm, hsk, hask, h]

/-- Witness for `c1_prefix_precedence` at the identifiers
`sender-key-memory-abc` and `app-state-sync-version-1`. -/
theorem c1_prefix_precedence_witness :
    (migCondition ⟨"sender-key", "sender_keys", "sender-key-"⟩ "sender-key-memory-abc"
      = false) ∧
    ((getTableConfigFromKey "sender-key-memory-abc").map TableConfig.suffix
      = some "_memory") ∧
    (migCondition ⟨"app-state-sync-key", "app_state_sync_keys", "app-state-sync-key-"⟩
      "app-state-sync-version-1" = false) ∧
    ((getTableConfigFromKey "app-state-sync-version-1").map TableConfig.suffix
      = some "_appversions") :=
  ⟨((c1_prefix_precedence "sender-key-memory-abc").1 (by decide)).2.1,
   ((c1_prefix_precedence "sender-key-memory-abc").1 (by decide)).2.2,
   ((c1_prefix_precedence "app-state-sync-version-1").2 (by decide)).2.1,
   ((c1_prefix_precedence "app-state-sync-version-1").2 (by decide)).2.2⟩

/-- C2: serializing a value with `BufferJSON.replacer` and parsing it
back with `BufferJSON.reviver` restores the value exactly, every
`Buffer` field byte-for-byte, for every well-formed value (`Buffer`
nodes hold real bytes, no plain object carries a `type: "Buffer"`
property, and `undefined`/`NaN` do not occur). -/
theorem c2_bufferjson_roundtrip (v : JVal) (h : jwf v = true) :
    jdeserialize (jserialize v) = .ok v :=
  jdeserialize_jserialize v h

/-- Witness for `c2_bufferjson_roundtrip` at an object holding one
`Buffer` field of five bytes. -/
theorem c2_bufferjson_roundtrip_witness :
    jwf (JVal.obj (.cons "key" (.buf [1, 2, 3, 255, 0]) .nil)) = true ∧
    jdeserialize (jserialize (JVal.obj (.cons "key" (.buf [1, 2, 3, 255, 0]) .nil))) =
      .ok (JVal.obj (.cons "key" (.buf [1, 2, 3, 255, 0]) .nil)) :=
  ⟨by decide, c2_bufferjson_roundtrip _ (by decide)⟩

/-- C3 (counterexample): after storing only the `pre-key` row for id
`3`, `state.keys.get('pre-key', ['3','4'])` returns a mapping that does
contain an entry for `'4'` — bound to `null` — because `data[id] = value`
is assigned unconditionally; the claim says absent identifiers have no
entry. -/
theorem c3_get_counterexample :
    keysGet [("pre-key-3", JVal.buf [1, 2, 3, 4, 5])] "pre-key" ["3", "4"] =
      .ok [("3", some (JVal.buf [1, 2, 3, 4, 5])), ("4", none)] ∧
    (keysGet [("pre-key-3", JVal.buf [1, 2, 3, 4, 5])] "pre-key" ["3", "4"]).map
        (fun l => l.map Prod.fst) = .ok ["3", "4"] :=
  ⟨rfl, rfl⟩

/-- C3 (amended): for every category other than `app-state-sync-key`,
`get` returns an entry for every requested identifier — a present row is
bound to its stored value and an absent one is bound to `null` — rather
than omitting absent identifiers. -/
theorem c3_get_amended (db : Store) (ty : String) (ids : List String)
    (h : ty ≠ "app-state-sync-key") :
    keysGet db ty ids = .ok (ids.map fun id => (id, readData db (ty ++ "-" ++ id))) := by
  induction ids with
  | nil => rfl
  | cons id rest ih =>
    cases hv : readData db (ty ++ "-" ++ id) with
    | some v => simp [keysGet, hv, h, ih]
    | none => simp [keysGet, hv, ih]

/-- Witness for `c3_get_amended` at the store of the counterexample. -/
theorem c3_get_amended_witness :
    keysGet [("pre-key-3", JVal.buf [1, 2, 3, 4, 5])] "pre-key" ["3", "4"] =
      .ok (["3", "4"].map fun id =>
        (id, readData [("pre-key-3", JVal.buf [1, 2, 3, 4, 5])] ("pre-key" ++ "-" ++ id))) :=
  c3_get_amended _ "pre-key" _ (by decide)

/-- C4 (counterexample): with three consecutive connection failures and
success on the fourth execution, the legacy `query` with retry bound 3
succeeds — the three in-loop attempts fail, the connection is
force-refreshed and the extra post-refresh execution (the fourth)
returns rows — contrary to the claim that the operation fails with an
error under retry bound 3.  (Bound 5 succeeds in-loop, as claimed.) -/
theorem c4_retry_counterexample :
    queryWithReconnect (fun k => decide (3 ≤ k)) 3 = .rows 3 ∧
    queryWithReconnect (fun k => decide (3 ≤ k)) 3 ≠ .err ∧
    queryWithReconnect (fun k => decide (3 ≤ k)) 5 = .rows 3 :=
  ⟨rfl, by decide, rfl⟩

/-- C4 (amended): the legacy `query` makes at most the configured number
of in-loop attempts and returns the first successful attempt's rows;
when every in-loop attempt fails, the connection is force-refreshed and
the statement is executed once more (attempt number `bound`), whose
success returns rows — so three failures followed by success on the
fourth execution succeed under bound 3 as well — and only when the
post-refresh execution also fails is the error propagated. -/
theorem c4_retry_amended (ok : Nat → Bool) (b j : Nat) :
    ((j < b ∧ ok j = true ∧ (∀ i, i < j → ok i = false)) →
      queryWithReconnect ok b = .rows j) ∧
    (((∀ i, i < b → ok i = false) ∧ ok b = true ∧ 1 ≤ b) →
      queryWithReconnect ok b = .rows b) ∧
    (((∀ i, i ≤ b → ok i = false) ∧ 1 ≤ b) →
      queryWithReconnect ok b = .err) := by
  refine ⟨fun h => ?_, fun h => ?_, fun h => ?_⟩
  · unfold queryWithReconnect
    rw [List.range_eq_range' b]
    exact queryRetryLoop_success ok b 0 j b (by omega) (Nat.zero_le _) h.1 h.2.1 h.2.2
  · unfold queryWithReconnect
    rw [List.range_eq_range' b,
      queryRetryLoop_exhausted ok b 0 b (by omega) h.2.2 h.1, if_pos h.2.1]
  · unfold queryWithReconnect
    rw [List.range_eq_range' b,
      queryRetryLoop_exhausted ok b 0 b (by omega) h.2 (fun i hi => h.1 i (le_of_lt hi)),
      if_neg (by simp [h.1 b le_rfl])]

/-- Witness for `c4_retry_amended`: three connection failures followed
by success on the fourth execution succeed with retry bound 5 (in-loop)
and with retry bound 3 (via the post-refresh extra execution). -/
theorem c4_retry_amended_witness :
    queryWithReconnect (fun k => decide (3 ≤ k)) 5 = .rows 3 ∧
    queryWithReconnect (fun k => decide (3 ≤ k)) 3 = .rows 3 :=
  ⟨(c4_retry_amended (fun k => decide (3 ≤ k)) 5 3).1
      ⟨by omega, by decide, fun i hi => by simp only [decide_eq_false_iff_not]; omega⟩,
   (c4_retry_amended (fun k => decide (3 ≤ k)) 3 3).2.1
      ⟨fun i hi => by simp only [decide_eq_false_iff_not]; omega, by decide, by omega⟩⟩

/-- C5: within one `set` call whose flattened operations carry pairwise
distinct row names, an entry with a truthy value is upserted so that the
subsequent read of `category-id` returns exactly that value, and an
entry with a falsy (`null`/`undefined`) value deletes the row so that
the subsequent read returns absent. -/
theorem c5_set_semantics (db : Store) (ds : SignalDataSet) (cat id : String) (v : JVal)
    (hnd : ((setOps ds).map Prod.fst).Nodup)
    (hmem : (cat ++ "-" ++ id, v) ∈ setOps ds) :
    (jsTruthy v = true → readData (applySet db ds) (cat ++ "-" ++ id) = some v) ∧
    (jsTruthy v = false → readData (applySet db ds) (cat ++ "-" ++ id) = none) := by
  have key := foldl_setStep_mem (setOps ds) db (cat ++ "-" ++ id) v hnd hmem
  constructor <;> intro ht
  · unfold readData
    rw [applySet_eq_fold, key, if_pos ht]
  · unfold readData
    rw [applySet_eq_fold, key, if_neg (by simp [ht])]

/-- Witness for `c5_set_semantics`: one `set` call writes `pre-key` id
`3` and deletes `pre-key` id `4` (value `null`); afterwards id `3` reads
back the written bytes and id `4` is absent. -/
theorem c5_set_semantics_witness :
    readData
      (applySet [("pre-key-4", JVal.num 9)]
        [("pre-key", [("3", JVal.buf [1, 2, 3, 4, 5]), ("4", JVal.null)])])
      ("pre-key" ++ "-" ++ "3") = some (JVal.buf [1, 2, 3, 4, 5]) ∧
    readData
      (applySet [("pre-key-4", JVal.num 9)]
        [("pre-key", [("3", JVal.buf [1, 2, 3, 4, 5]), ("4", JVal.null)])])
      ("pre-key" ++ "-" ++ "4") = none :=
  ⟨(c5_set_semantics _ _ "pre-key" "3" (JVal.buf [1, 2, 3, 4, 5])
      (by decide) (by decide)).1 rfl,
   (c5_set_semantics _ _ "pre-key" "4" JVal.null (by decide) (by decide)).2 rfl⟩

/-- C6: `clear` (`DELETE ... WHERE id != 'creds' AND session = ?`)
removes every key row of the session while the `creds` row remains
retrievable unchanged; `removeCreds` (`DELETE ... WHERE session = ?`)
removes every row of the session, `creds` included. -/
theorem c6_clear_vs_remove (db : List LegacyRow) (s : String) :
    (selectValue (clearAllRows db s) s "creds" = selectValue db s "creds") ∧
    (∀ id, id ≠ "creds" → selectValue (clearAllRows db s) s id = none) ∧
    (∀ id, selectValue (removeAllRows db s) s id = none) := by
  refine ⟨?_, ?_, ?_⟩
  · unfold selectValue clearAllRows
    rw [find?_filter_keep]
    intro r hr
    simp only [Bool.and_eq_true, decide_eq_true_eq] at hr
    simp [hr.2]
  · intro id hid
    have h0 : List.find? (fun r => decide (r.session = s) && decide (r.id = id))
        (db.filter (fun r => !(decide (r.id ≠ "creds") && decide (r.session = s)))) =
        none := by
      apply find?_filter_none
      intro r hk
      simp only [Bool.not_eq_true', Bool.and_eq_false_iff, decide_eq_false_iff_not,
        not_not] at hk
      simp only [Bool.and_eq_false_iff, decide_eq_false_iff_not]
      rcases hk with hcreds | hns
      · right
        rw [hcreds]
        exact fun hc => hid hc.symm
      · left
        exact hns
    unfold selectValue clearAllRows
    rw [h0]
    rfl
  · intro id
    have h0 : List.find? (fun r => decide (r.session = s) && decide (r.id = id))
        (db.filter (fun r => !(decide (r.session = s)))) = none := by
      apply find?_filter_none
      intro r hk
      simp only [Bool.not_eq_true', decide_eq_false_iff_not] at hk
      simp only [Bool.and_eq_false_iff, decide_eq_false_iff_not]
      exact Or.inl hk
    unfold selectValue removeAllRows
    rw [h0]
    rfl

/-- Witness for `c6_clear_vs_remove` on a session with a `creds` row and
one key row. -/
theorem c6_clear_vs_remove_witness :
    selectValue
      (clearAllRows [⟨"s1", "creds", JVal.num 1⟩, ⟨"s1", "pre-key-3", JVal.num 2⟩] "s1")
      "s1" "creds" =
      selectValue [⟨"s1", "creds", JVal.num 1⟩, ⟨"s1", "pre-key-3", JVal.num 2⟩] "s1"
        "creds" ∧
    selectValue
      (clearAllRows [⟨"s1", "creds", JVal.num 1⟩, ⟨"s1", "pre-key-3", JVal.num 2⟩] "s1")
      "s1" "pre-key-3" = none ∧
    selectValue
      (removeAllRows [⟨"s1", "creds", JVal.num 1⟩, ⟨"s1", "pre-key-3", JVal.num 2⟩] "s1")
      "s1" "creds" = none :=
  ⟨(c6_clear_vs_remove _ "s1").1,
   (c6_clear_vs_remove _ "s1").2.1 "pre-key-3" (by decide),
   (c6_clear_vs_remove _ "s1").2.2 "creds"⟩

/-- C7: re-running `migrateFromLegacy` for a session that already has a
device row is a no-op — the function checks for an existing device row
first and returns with the state completely unchanged. -/
theorem c7_migration_skip (st : MigState) (s : String)
    (h : (st.devices.find? (fun d => decide (d.2 = s))).isSome = true) :
    migrateFromLegacy st s = st := by
  unfold migrateFromLegacy
  rw [if_pos h]

/-- Witness for `c7_migration_skip`: a state with a device row for the
session and a pending legacy key row stays untouched. -/
theorem c7_migration_skip_witness :
    migrateFromLegacy
      ⟨[(1, "session1")], [⟨"session1", "pre-key-7", JVal.num 1⟩],
        [], [], [], [], [], []⟩ "session1" =
      ⟨[(1, "session1")], [⟨"session1", "pre-key-7", JVal.num 1⟩],
        [], [], [], [], [], []⟩ :=
  c7_migration_skip _ _ (by decide)

/-- C9: `sanitizeTableName` (and the identical `sqlSanitize.identifier`)
keeps exactly the characters in `[A-Za-z0-9_]`, so its output always
matches `^[A-Za-z0-9_]*$`; and the `CREATE TABLE` statement built by
`initializeDatabase` depends only on the sanitized table name (the
sanitizer is idempotent, so the interpolated name is always in sanitized
form). -/
theorem c9_sanitized_sql (s : String) :
    (sanitizeTableName s).toList.all isWordChar = true ∧
    sqlSanitizeIdentifier s = sanitizeTableName s ∧
    initializeDatabaseSQL s = initializeDatabaseSQL (sanitizeTableName s) := by
  have hidem : sanitizeTableName (sanitizeTableName s) = sanitizeTableName s := by
    unfold sanitizeTableName
    congr 1
    rw [show (String.mk (s.toList.filter isWordChar)).toList =
        s.toList.filter isWordChar from rfl]
    rw [List.filter_filter]
    simp [Bool.and_self]
  refine ⟨?_, rfl, ?_⟩
  · rw [show (sanitizeTableName s).toList = s.toList.filter isWordChar from rfl,
      List.all_eq_true]
    intro x hx
    exact (List.mem_filter.mp hx).2
  · unfold initializeDatabaseSQL
    rw [hidem]

/-- C10: `useMySQLAuthState` throws `Database name and session
identifier are required` exactly when the configured database or session
is absent or empty, before opening a connection or touching stored state
(the error branch performs no effects); with both non-empty it proceeds
to open the connection, initialize the table and prepare statements. -/
theorem c10_config_required (database session : Option String) :
    ((strFalsy database || strFalsy session) = true →
      useMySQLAuthStateInit database session =
        .error "Database name and session identifier are required") ∧
    ((strFalsy database || strFalsy session) = false →
      useMySQLAuthStateInit database session =
        .ok [.openConnection, .initDatabase, .prepareStatements]) := by
  constructor <;> intro h <;> simp [useMySQLAuthStateInit, h]

/-- Witness for `c10_config_required`: a missing database errors, a full
configuration passes validation. -/
theorem c10_config_required_witness :
    useMySQLAuthStateInit none (some "session1") =
      .error "Database name and session identifier are required" ∧
    useMySQLAuthStateInit (some "wadb") (some "session1") =
      .ok [.openConnection, .initDatabase, .prepareStatements] :=
  ⟨(c10_config_required none (some "session1")).1 rfl,
   (c10_config_required (some "wadb") (some "session1")).2 rfl⟩

/-- Bytes produced by `allocate` are always zero. -/
theorem allocate_all_zero (s : List Char) (bs : List Nat) (h : allocate s = .ok bs) :
    bs.all (fun x => decide (x = 0)) = true := by
  unfold allocate at h
  by_cases h0 : s.length = 0
  · rw [if_pos h0] at h
    simp only [Except.ok.injEq] at h
    subst h
    decide
  · rw [if_neg h0] at h
    by_cases h4 : s.length * 3 % 4 = 0
    · rw [if_pos h4] at h
      simp only [Except.ok.injEq] at h
      subst h
      rw [List.all_eq_true]
      intro x hx
      simp [List.eq_of_mem_replicate hx]
    · rw [if_neg h4] at h
      exact absurd h (by simp)

/-- C8 (counterexample): `fromObject` on a wire value whose `keyData` is
the string `"AAAA"` — not an array — produces the three-byte zero-filled
array `allocate` builds, not the empty byte array the claim promises for
every non-array `keyData`. -/
theorem c8_fromobject_counterexample :
    fromObject (.obj (.cons "fingerprint" (.obj .nil)
        (.cons "keyData" (.str "AAAA") (.cons "timestamp" (.num 7) .nil)))) =
      .ok (.obj (.cons "keyData" (.buf [0, 0, 0])
        (.cons "fingerprint" (.obj (.cons "rawId" (.num 0) (.cons "currentIndex" (.num 0)
          (.cons "deviceIndexes" (.arr .nil) .nil))))
        (.cons "timestamp" (.num 7) .nil)))) ∧
    JVal.buf [0, 0, 0] ≠ JVal.buf [] :=
  ⟨rfl, by decide⟩

/-- C8 (amended): on a wire value with an object `fingerprint`,
`fromObject` returns the canonical shape in which the timestamp is
`parseTimestamp` of the given timestamp — the numeric value of a decimal
string, a number kept as-is — `fingerprint.deviceIndexes` is the given
list when it is an array and the empty list otherwise, and `keyData` is
the given list when it is an array, the zero-filled array built by
`allocate` when it is a string, and the empty byte array otherwise. -/
theorem c8_fromobject_amended (fl : JFields) (kd ts res : JVal)
    (h : fromObject (.obj (.cons "fingerprint" (.obj fl)
        (.cons "keyData" kd (.cons "timestamp" ts .nil)))) = .ok res) :
    (jsField res "timestamp" = parseTimestampJ ts) ∧
    (∀ s2 : String, ts = .str s2 → s2.toList ≠ [] → s2.toList.all Char.isDigit = true →
      jsField res "timestamp" =
        .num ((s2.toList.foldl (fun a c => a * 10 + (c.toNat - 48)) 0 : Nat) : Int)) ∧
    (∀ n : Int, ts = .num n → jsField res "timestamp" = .num n) ∧
    (∀ dl : JList, jsField (.obj fl) "deviceIndexes" = .arr dl →
      jsField (jsField res "fingerprint") "deviceIndexes" = .arr dl) ∧
    ((∀ dl : JList, jsField (.obj fl) "deviceIndexes" ≠ .arr dl) →
      jsField (jsField res "fingerprint") "deviceIndexes" = .arr .nil) ∧
    (∀ al : JList, kd = .arr al → jsField res "keyData" = .arr al) ∧
    (∀ s2 bs, kd = .str s2 → allocate s2.toList = .ok bs →
      jsField res "keyData" = .buf bs ∧ bs.all (fun x => decide (x = 0)) = true) ∧
    ((∀ al : JList, kd ≠ .arr al) → (∀ s2 : String, kd ≠ .str s2) →
      jsField res "keyData" = .buf []) := by
  have hmain : fromObject (.obj (.cons "fingerprint" (.obj fl)
        (.cons "keyData" kd (.cons "timestamp" ts .nil)))) =
    (match (match kd with
            | .str s2 => (allocate s2.toList).map JVal.buf
            | .arr l => Except.ok (JVal.arr l)
            | _ => Except.ok (JVal.buf [])) with
     | .ok keyData =>
        Except.ok (JVal.obj (.cons "keyData" keyData
          (.cons "fingerprint" (.obj (.cons "rawId"
              (if jsTruthy (jsField (.obj fl) "rawId") then jsField (.obj fl) "rawId"
               else .num 0)
            (.cons "currentIndex"
              (if jsTruthy (jsField (.obj fl) "rawId") then jsField (.obj fl) "rawId"
               else .num 0)
            (.cons "deviceIndexes"
              (match jsField (.obj fl) "deviceIndexes" with
               | .arr l => JVal.arr l
               | _ => .arr .nil) .nil))))
          (.cons "timestamp" (parseTimestampJ ts) .nil))))
     | .error e => Except.error e) := rfl
  rw [hmain] at h
  generalize hM : (match kd with
            | JVal.str s2 => (allocate s2.toList).map JVal.buf
            | JVal.arr l => Except.ok (JVal.arr l)
            | _ => Except.ok (JVal.buf [])) = M at h
  cases M with
  | error e => exact absurd h (by simp)
  | ok keyData =>
    simp only [Except.ok.injEq] at h
    subst h
    refine ⟨rfl, ?_, ?_, ?_, ?_, ?_, ?_, ?_⟩
    · intro s2 hts hne hd
      subst hts
      simp [jsField, jlookup, parseTimestampJ, jsParseInt_digits s2 hne hd]
    · intro n htn
      subst htn
      rfl
    · intro dl hdl
      simp only [jsField] at hdl
      simp [jsField, jlookup, hdl]
    · intro hnone
      have hred : (match jsField (.obj fl) "deviceIndexes" with
          | JVal.arr l => JVal.arr l
          | _ => JVal.arr .nil) = JVal.arr .nil := by
        cases hDl : jsField (.obj fl) "deviceIndexes" <;> first
          | exact absurd hDl (hnone _)
          | rfl
      simp only [jsField] at hred
      simp [jsField, jlookup, hred]
    · intro al hal
      subst hal
      have hk2 : keyData = JVal.arr al := by simpa using hM.symm
      subst hk2
      rfl
    · intro s2 bs hs hab
      subst hs
      have hab2 : allocate s2.data = Except.ok bs := hab
      have hk2 : keyData = JVal.buf bs := by simpa [hab2, Except.map] using hM.symm
      subst hk2
      exact ⟨rfl, allocate_all_zero s2.toList bs hab⟩
    · intro hnarr hnstr
      cases kd <;> first
        | exact absurd rfl (hnarr _)
        | exact absurd rfl (hnstr _)
        | (have hk2 : keyData = JVal.buf [] := by simpa using hM.symm
           subst hk2
           rfl)

/-- Witness for `c8_fromobject_amended`: fingerprint with a `rawId`, a
string `keyData` `"AAAA"` and a decimal-string timestamp `"123"`. -/
theorem c8_fromobject_amended_witness :
    jsField (.obj (.cons "keyData" (.buf [0, 0, 0])
        (.cons "fingerprint" (.obj (.cons "rawId" (.num 5) (.cons "currentIndex" (.num 5)
          (.cons "deviceIndexes" (.arr .nil) .nil))))
        (.cons "timestamp" (.num 123) .nil)))) "timestamp" = .num 123 ∧
    jsField (.obj (.cons "keyData" (.buf [0, 0, 0])
        (.cons "fingerprint" (.obj (.cons "rawId" (.num 5) (.cons "currentIndex" (.num 5)
          (.cons "deviceIndexes" (.arr .nil) .nil))))
        (.cons "timestamp" (.num 123) .nil)))) "keyData" = .buf [0, 0, 0] ∧
    List.all [0, 0, 0] (fun x => decide (x = 0)) = true :=
  ⟨by
    have := (c8_fromobject_amended (.cons "rawId" (.num 5) .nil) (.str "AAAA") (.str "123")
      (.obj (.cons "keyData" (.buf [0, 0, 0])
        (.cons "fingerprint" (.obj (.cons "rawId" (.num 5) (.cons "currentIndex" (.num 5)
          (.cons "deviceIndexes" (.arr .nil) .nil))))
        (.cons "timestamp" (.num 123) .nil)))) rfl).2.1 "123" rfl (by decide) (by decide)
    simpa using this,
   by
    exact ((c8_fromobject_amended (.cons "rawId" (.num 5) .nil) (.str "AAAA") (.str "123")
      (.obj (.cons "keyData" (.buf [0, 0, 0])
        (.cons "fingerprint" (.obj (.cons "rawId" (.num 5) (.cons "currentIndex" (.num 5)
          (.cons "deviceIndexes" (.arr .nil) .nil))))
        (.cons "timestamp" (.num 123) .nil)))) rfl).2.2.2.2.2.2.1 "AAAA" [0, 0, 0] rfl
        rfl).1,
   by decide⟩

/-- The `query` of src/Mysql/index.ts has no post-refresh extra attempt:
with three failures and success available on the fourth execution, bound
3 propagates the error while bound 5 succeeds in-loop. -/
theorem querySimpleRetry_scenario :
    querySimpleRetry (fun k => decide (3 ≤ k)) 3 = none ∧
    querySimpleRetry (fun k => decide (3 ≤ k)) 5 = some 3 :=
  ⟨rfl, rfl⟩
